import Mathlib

/-!
# Connection registry and broadcast engine (`src/websocket.js`, `src/database.js`)

A shallow embedding of `WebSocketManager` and of `db.getTimers`.

Conventions of the embedding.

* A JavaScript `Map` is an insertion-ordered association list, a JavaScript `Set`
  an insertion-ordered duplicate-free list.
* A socket object is identified by a number; its properties live in the
  `sockets` component of the manager state.  A property that JavaScript would
  report as `undefined` is `none`.
* Calls made on a socket (`send`, `close`, `terminate`, `ping`) are appended to
  the per-socket call record `calls`, in call order.  `send` and `ping` are
  taken not to throw (the socket is past the connecting phase everywhere they
  are called).
* `JSON.stringify` is not modelled: an outgoing message is the object handed to it.
* Results of the awaited collaborators (`getUserFromSession`, `pool.query`),
  of `JSON.parse`, of `cookie.parse(...).sessionId` and of `Date.now()` are
  inputs of the functions that consume them.
-/

namespace TimerWS

/-! ## JavaScript containers -/

/-- A JavaScript `Map`, in insertion order. -/
abbrev JSMap (κ : Type) (ν : Type) := List (κ × ν)

namespace JSMap

variable {κ ν : Type} [DecidableEq κ]

/-- The method `Map.prototype.has`. -/
def has (m : JSMap κ ν) (k : κ) : Bool := m.any (fun p => decide (p.1 = k))

/-- The method `Map.prototype.get`; `none` stands for `undefined`. -/
def get (m : JSMap κ ν) (k : κ) : Option ν :=
  (m.find? (fun p => decide (p.1 = k))).map Prod.snd

/-- The method `Map.prototype.set`: an existing key keeps its position. -/
def set (m : JSMap κ ν) (k : κ) (v : ν) : JSMap κ ν :=
  if m.has k then m.map (fun p => if p.1 = k then (k, v) else p) else m ++ [(k, v)]

/-- The method `Map.prototype.delete`. -/
def delete (m : JSMap κ ν) (k : κ) : JSMap κ ν := m.filter (fun p => !decide (p.1 = k))

/-- The method `Map.prototype.clear`. -/
def clear (_m : JSMap κ ν) : JSMap κ ν := []

/-- The property `Map.prototype.size`. -/
def size (m : JSMap κ ν) : Nat := m.length

end JSMap

/-- A JavaScript `Set`: insertion-ordered and duplicate-free. -/
def JSSet (α : Type) := { l : List α // l.Nodup }

namespace JSSet

variable {α : Type} [DecidableEq α]

instance : DecidableEq (JSSet α) := inferInstanceAs (DecidableEq { l : List α // l.Nodup })

/-- The empty set, `new Set()`. -/
def empty : JSSet α := ⟨[], List.nodup_nil⟩

/-- The elements in iteration (insertion) order. -/
def elems (s : JSSet α) : List α := s.val

/-- The method `Set.prototype.has`. -/
def has (s : JSSet α) (a : α) : Bool := decide (a ∈ s.val)

/-- The method `Set.prototype.add`: adding a member again changes nothing. -/
def add (s : JSSet α) (a : α) : JSSet α :=
  if h : a ∈ s.val then s
  else ⟨s.val ++ [a], List.Nodup.append s.property (List.nodup_singleton a)
    (by
      intro x hx hx1
      rw [List.mem_singleton] at hx1
      exact h (hx1 ▸ hx))⟩

/-- The method `Set.prototype.delete`. -/
def delete (s : JSSet α) (a : α) : JSSet α :=
  ⟨s.val.filter (fun x => !decide (x = a)), s.property.filter _⟩

/-- The property `Set.prototype.size`. -/
def size (s : JSSet α) : Nat := s.val.length

end JSSet

/-! ## Data -/

/-- A user id: `users."id"`, a `VARCHAR(21)` column. -/
abbrev UserId := String

/-- A socket object, by identity. -/
abbrev ConnId := Nat

/-- JavaScript truthiness of a string. -/
def truthyStr (s : String) : Bool := !decide (s = "")

/-- JavaScript truthiness of a string-or-undefined value. -/
def truthyOptStr : Option String → Bool
  | none => false
  | some s => truthyStr s

/-- JavaScript truthiness of a boolean-or-undefined value. -/
def truthyOptBool : Option Bool → Bool
  | some true => true
  | _ => false

/-- A row of table `timers` as selected by the queries of `db.getTimers`. -/
structure Row where
  id : String
  description : String
  start : Int
  isActive : Bool
  «end» : Option Int
  duration : Option Int
  deriving DecidableEq, Repr

/-- A timer object as built by `db.getTimers` (and extended by `sendActiveTimers`);
a property that is absent is `none`. -/
structure TimerData where
  id : String
  description : String
  start : Int
  isActive : Bool
  progress : Option Int
  «end» : Option Int
  duration : Option Int
  currentTime : Option Int
  deriving DecidableEq, Repr

/-- The conversion `Number(x)` of a nullable `bigint` column: `Number(null)` is `0`. -/
def numberOf : Option Int → Int
  | none => 0
  | some n => n

/-- The identity returned by `getUserFromSession`. -/
structure User where
  id : UserId
  username : String
  deriving DecidableEq, Repr

/-- The objects passed to `JSON.stringify` before `send`. -/
inductive Msg where
  | authError (error : String)
  | authSuccess (message : String)
  | error (error : String)
  | pong (timestamp : Int)
  | allTimers (data : List TimerData) (timestamp : Int)
  | activeTimers (data : List TimerData) (timestamp : Int)
  deriving DecidableEq, Repr

/-- The `type` property of an outgoing message. -/
def Msg.type : Msg → String
  | .authError _ => "auth_error"
  | .authSuccess _ => "auth_success"
  | .error _ => "error"
  | .pong _ => "pong"
  | .allTimers _ _ => "all_timers"
  | .activeTimers _ _ => "active_timers"

/-- The constants `WebSocket.CONNECTING` ... `WebSocket.CLOSED`. -/
inductive ReadyState where
  | CONNECTING
  | OPEN
  | CLOSING
  | CLOSED
  deriving DecidableEq, Repr

/-- A call made by the manager on a socket. -/
inductive WsCall where
  | send (m : Msg)
  | close (code : Nat) (reason : String)
  | terminate
  | ping
  deriving DecidableEq, Repr

/-- The properties of a socket object. -/
structure Ws where
  readyState : ReadyState
  isAuthenticated : Option Bool
  userId : Option UserId
  username : Option String
  isAlive : Option Bool
  listening : Bool
  calls : List WsCall
  deriving DecidableEq, Repr

/-- A socket as the transport hands it to the `connection` handler. -/
def Ws.fresh : Ws :=
  { readyState := .OPEN, isAuthenticated := none, userId := none, username := none,
    isAlive := none, listening := false, calls := [] }

/-- The callback of a `setInterval` call of the manager. -/
inductive Callback where
  | sendActiveTimers (userId : UserId)
  | heartbeat
  deriving DecidableEq, Repr

/-- A live `setInterval` registration. -/
structure Interval where
  handle : Nat
  callback : Callback
  delay : Nat
  deriving DecidableEq, Repr

/-- The state of a `WebSocketManager` together with the sockets and the timers
of the runtime it talks to. -/
@[ext]
structure State where
  clients : JSMap UserId (JSSet ConnId)
  timerIntervals : JSMap UserId Nat
  wssClients : JSSet ConnId
  wssClosed : Bool
  sockets : ConnId → Ws
  intervals : List Interval
  nextHandle : Nat

/-- A parsed JSON value, the result of `JSON.parse`. -/
inductive Json where
  | null
  | bool (b : Bool)
  | num (n : Int)
  | str (s : String)
  | arr (xs : List Json)
  | obj (kvs : List (String × Json))

/-- The property read `data.type`: a `TypeError` on `null`, `undefined` (`none`) on
a value without that property. -/
def Json.type : Json → Except String (Option Json)
  | .null => .error "TypeError: Cannot read properties of null"
  | .obj kvs => .ok ((kvs.find? (fun p => decide (p.1 = "type"))).map Prod.snd)
  | _ => .ok none

/-! ## Runtime primitives -/

/-- Update of the properties of one socket. -/
def setWs (s : State) (ws : ConnId) (f : Ws → Ws) : State :=
  { s with sockets := Function.update s.sockets ws (f (s.sockets ws)) }

/-- The call `ws.send(JSON.stringify(m))`. -/
def wsSend (s : State) (ws : ConnId) (m : Msg) : State :=
  setWs s ws (fun w => { w with calls := w.calls ++ [WsCall.send m] })

/-- The call `ws.close(code, reason)`: starts the closing handshake. -/
def wsClose (s : State) (ws : ConnId) (code : Nat) (reason : String) : State :=
  setWs s ws (fun w => { w with
    calls := w.calls ++ [WsCall.close code reason],
    readyState := if w.readyState = .CLOSED then .CLOSED else .CLOSING })

/-- The call `ws.terminate()`: destroys the socket. -/
def wsTerminate (s : State) (ws : ConnId) : State :=
  setWs s ws (fun w => { w with
    calls := w.calls ++ [WsCall.terminate],
    readyState := if w.readyState = .CLOSED then .CLOSED else .CLOSING })

/-- The call `ws.ping()`. -/
def wsPing (s : State) (ws : ConnId) : State :=
  setWs s ws (fun w => { w with calls := w.calls ++ [WsCall.ping] })

/-- The call `setInterval(callback, delay)`: returns the new handle. -/
def setInterval (s : State) (callback : Callback) (delay : Nat) : State × Nat :=
  ({ s with
      intervals := s.intervals ++ [{ handle := s.nextHandle, callback := callback, delay := delay }],
      nextHandle := s.nextHandle + 1 },
   s.nextHandle)

/-- The call `clearInterval(handle)`. -/
def clearInterval (s : State) (handle : Nat) : State :=
  { s with intervals := s.intervals.filter (fun i => !decide (i.handle = handle)) }

/-- The transport accepts a socket: it is open and joins `wss.clients`. -/
def accept (s : State) (ws : ConnId) : State :=
  { s with
    wssClients := s.wssClients.add ws,
    sockets := Function.update s.sockets ws Ws.fresh }

/-! ## `db.getTimers` (`src/database.js`) -/

/-- The function `db.getTimers(userId, isActive)`.  The parameter `pool b userId` is
the outcome of `pool.query` for the query on active (`b = true`) or completed
(`b = false`) timers of `userId`; `now` is the reading of `Date.now()` taken
after the query. -/
def getTimers (pool : Bool → UserId → Except String (List Row)) (userId : UserId)
    (isActive : String) (now : Int) : Except String (List TimerData) :=
  if isActive = "true" ∨ isActive = "false" then
    match pool (decide (isActive = "true")) userId with
    | .error e => .error e
    | .ok rows =>
      .ok (rows.map (fun timer =>
        if timer.isActive then
          { id := timer.id, description := timer.description, start := timer.start,
            isActive := timer.isActive, progress := some (now - timer.start),
            «end» := none, duration := none, currentTime := none }
        else
          { id := timer.id, description := timer.description, start := timer.start,
            isActive := timer.isActive, progress := none,
            «end» := some (numberOf timer.«end»), duration := some (numberOf timer.duration),
            currentTime := none }))
  else .ok []

/-! ## `WebSocketManager` (`src/websocket.js`) -/

/-- The loop `set.forEach(client => { if (client.readyState === WebSocket.OPEN) client.send(message) })`. -/
def sendToOpen (s : State) (set : JSSet ConnId) (message : Msg) : State :=
  set.elems.foldl
    (fun st client => if (st.sockets client).readyState = .OPEN then wsSend st client message else st)
    s

/-- The method `sendAllTimers(userId)`; `t1`, `t2` are the clock readings inside the
two `db.getTimers` calls and `now` the one of the message timestamp. -/
def sendAllTimers (s : State) (pool : Bool → UserId → Except String (List Row))
    (userId : UserId) (t1 t2 now : Int) : State :=
  match getTimers pool userId "true" t1 with
  | .error _ => s
  | .ok activeTimers =>
    match getTimers pool userId "false" t2 with
    | .error _ => s
    | .ok stoppedTimers =>
      let allTimers := activeTimers ++ stoppedTimers
      if s.clients.has userId then
        match s.clients.get userId with
        | none => s
        | some set => sendToOpen s set (Msg.allTimers allTimers now)
      else s

/-- The objects `timersWithProgress` of `sendActiveTimers`. -/
def timersWithProgress (activeTimers : List TimerData) (now : Int) : List TimerData :=
  activeTimers.map (fun timer =>
    { timer with progress := some (now - timer.start), currentTime := some now })

/-- The method `sendActiveTimers(userId)`, the body of a tick; `t1` is the clock
reading inside `db.getTimers` and `now` the one taken by the method. -/
def sendActiveTimers (s : State) (pool : Bool → UserId → Except String (List Row))
    (userId : UserId) (t1 now : Int) : State :=
  match getTimers pool userId "true" t1 with
  | .error _ => s
  | .ok activeTimers =>
    if s.clients.has userId then
      match s.clients.get userId with
      | none => s
      | some set => sendToOpen s set (Msg.activeTimers (timersWithProgress activeTimers now) now)
    else s

/-- The method `startTimerInterval(userId)`. -/
def startTimerInterval (s : State) (userId : UserId) : State :=
  if s.timerIntervals.has userId then s
  else
    let r := setInterval s (Callback.sendActiveTimers userId) 1000
    { r.1 with timerIntervals := r.1.timerIntervals.set userId r.2 }

/-- The method `stopTimerInterval(userId)`. -/
def stopTimerInterval (s : State) (userId : UserId) : State :=
  if s.timerIntervals.has userId then
    match s.timerIntervals.get userId with
    | none => s
    | some intervalId =>
      let s1 := clearInterval s intervalId
      { s1 with timerIntervals := s1.timerIntervals.delete userId }
  else s

/-- The body of the heartbeat callback for one socket. -/
def pingOne (s : State) (ws : ConnId) : State :=
  if !truthyOptBool (s.sockets ws).isAlive then wsTerminate s ws
  else wsPing (setWs s ws (fun w => { w with isAlive := some false })) ws

/-- The callback scheduled by `startPingInterval`: one heartbeat cycle over `wss.clients`. -/
def heartbeat (s : State) : State := s.wssClients.elems.foldl pingOne s

/-- The method `startPingInterval()`; the handle returned by `setInterval` is dropped. -/
def startPingInterval (s : State) : State := (setInterval s Callback.heartbeat 30000).1

/-- The `pong` listener of a socket. -/
def onPong (s : State) (ws : ConnId) : State :=
  setWs s ws (fun w => { w with isAlive := some true })

/-- The method `handleMessage(ws, message)`; `parsed` is the outcome of
`JSON.parse(message)` and `now` the clock reading. -/
def handleMessage (s : State) (ws : ConnId) (parsed : Except String Json) (now : Int) : State :=
  match parsed with
  | .error _ => s
  | .ok data =>
    if !truthyOptBool (s.sockets ws).isAuthenticated then
      wsSend s ws (Msg.error "Not authenticated")
    else
      match data.type with
      | .error _ => s
      | .ok (some (Json.str t)) => if t = "ping" then wsSend s ws (Msg.pong now) else s
      | .ok _ => s

/-- The method `handleDisconnect(ws)`. -/
def handleDisconnect (s : State) (ws : ConnId) : State :=
  match (s.sockets ws).userId with
  | none => s
  | some userId =>
    if truthyStr userId && s.clients.has userId then
      match s.clients.get userId with
      | none => s
      | some set =>
        let set1 := set.delete ws
        let s1 := { s with clients := s.clients.set userId set1 }
        if set1.size = 0 then
          stopTimerInterval { s1 with clients := s1.clients.delete userId } userId
        else s1
    else s

/-- The `catch` block of the `connection` handler. -/
def connectionCatch (s : State) (ws : ConnId) : State :=
  wsClose (wsSend s ws (Msg.authError "Internal server error")) ws 1011 "Internal server error"

/-- The `connection` handler up to `await getUserFromSession(sessionId)`.  The
argument `sessionId` is `cookie.parse(req.headers.cookie || "").sessionId`.  The
second component tells whether the handler is suspended at the `await`. -/
def onConnectionBegin (s : State) (ws : ConnId) (sessionId : Option String) : State × Bool :=
  let s1 := setWs s ws (fun w => { w with isAuthenticated := some false })
  if !truthyOptStr sessionId then
    (wsClose (wsSend s1 ws (Msg.authError "No session provided")) ws 1008 "No session provided",
     false)
  else (s1, true)

/-- The `connection` handler from the resumption of `await getUserFromSession(sessionId)`
to its end; `lookup` is the outcome of the awaited call. -/
def onConnectionResume (s : State) (ws : ConnId) (lookup : Except String (Option User))
    (pool : Bool → UserId → Except String (List Row)) (t1 t2 now : Int) : State :=
  match lookup with
  | .error _ => connectionCatch s ws
  | .ok none =>
    wsClose (wsSend s ws (Msg.authError "Invalid session")) ws 1008 "Invalid session"
  | .ok (some user) =>
    let s1 := setWs s ws (fun w => { w with
      isAuthenticated := some true, userId := some user.id,
      username := some user.username, isAlive := some true })
    let s2 :=
      if !s1.clients.has user.id then
        startTimerInterval { s1 with clients := s1.clients.set user.id JSSet.empty } user.id
      else s1
    match s2.clients.get user.id with
    | none => connectionCatch s2 ws
    | some set =>
      let s3 := { s2 with clients := s2.clients.set user.id (set.add ws) }
      let s4 := wsSend s3 ws (Msg.authSuccess "Authentication successful")
      let s5 := sendAllTimers s4 pool user.id t1 t2 now
      setWs s5 ws (fun w => { w with listening := true })

/-- The `connection` handler run without interleaving. -/
def onConnection (s : State) (ws : ConnId) (sessionId : Option String)
    (lookup : Except String (Option User))
    (pool : Bool → UserId → Except String (List Row)) (t1 t2 now : Int) : State :=
  let r := onConnectionBegin s ws sessionId
  if r.2 then onConnectionResume r.1 ws lookup pool t1 t2 now else r.1

/-- The constructor: empty maps, then `setupWebSocket()`, which starts the heartbeat. -/
def State.init : State :=
  startPingInterval
    { clients := [], timerIntervals := [], wssClients := JSSet.empty, wssClosed := false,
      sockets := fun _ => Ws.fresh, intervals := [], nextHandle := 0 }

/-- The steps of the manager that the registry invariant ranges over. -/
inductive Step : State → State → Prop where
  | connection (s : State) (ws : ConnId) (sessionId : Option String)
      (lookup : Except String (Option User))
      (pool : Bool → UserId → Except String (List Row)) (t1 t2 now : Int) :
      Step s (onConnection s ws sessionId lookup pool t1 t2 now)
  | disconnect (s : State) (ws : ConnId) : Step s (handleDisconnect s ws)
  | message (s : State) (ws : ConnId) (parsed : Except String Json) (now : Int) :
      Step s (handleMessage s ws parsed now)
  | pong (s : State) (ws : ConnId) : Step s (onPong s ws)
  | tick (s : State) (pool : Bool → UserId → Except String (List Row))
      (userId : UserId) (t1 now : Int) : Step s (sendActiveTimers s pool userId t1 now)
  | notify (s : State) (pool : Bool → UserId → Except String (List Row))
      (userId : UserId) (t1 t2 now : Int) : Step s (sendAllTimers s pool userId t1 t2 now)
  | heartbeat (s : State) : Step s (heartbeat s)
  | accept (s : State) (ws : ConnId) : Step s (accept s ws)

/-- The states reachable from the constructed manager. -/
inductive Reachable : State → Prop where
  | init : Reachable State.init
  | step (s t : State) : Reachable s → Step s t → Reachable t

/-- The method `notifyTimerCreated(userId)`. -/
def notifyTimerCreated (s : State) (pool : Bool → UserId → Except String (List Row))
    (userId : UserId) (t1 t2 now : Int) : State :=
  sendAllTimers s pool userId t1 t2 now

/-- The method `notifyTimerStopped(userId)`. -/
def notifyTimerStopped (s : State) (pool : Bool → UserId → Except String (List Row))
    (userId : UserId) (t1 t2 now : Int) : State :=
  sendAllTimers s pool userId t1 t2 now

/-- The method `shutdown()`: every handle stored in `timerIntervals` is cleared,
the map is emptied and the acceptor is closed. -/
def shutdown (s : State) : State :=
  let s1 := s.timerIntervals.foldl (fun st p => clearInterval st p.2) s
  { s1 with timerIntervals := s1.timerIntervals.clear, wssClosed := true }

/-! ## `getUserFromSession` (`src/auth.js`) -/

/-- The property read `error.message` on a caught value: a `TypeError` on `null`,
`undefined` (`none`) on a value without that property. -/
def Json.message : Json → Except String (Option Json)
  | .null => .error "TypeError: Cannot read properties of null"
  | .obj kvs => .ok ((kvs.find? (fun p => decide (p.1 = "message"))).map Prod.snd)
  | _ => .ok none

/-- The effect of one iteration of the broadcast loop on the socket it visits. -/
def sendIfOpen (m : Msg) (w : Ws) : Ws :=
  if w.readyState = .OPEN then { w with calls := w.calls ++ [WsCall.send m] } else w

/-- The effect of one heartbeat cycle on a socket of `wss.clients`. -/
def pingWs (w : Ws) : Ws :=
  if !truthyOptBool w.isAlive then
    { w with calls := w.calls ++ [WsCall.terminate],
             readyState := if w.readyState = .CLOSED then .CLOSED else .CLOSING }
  else { w with isAlive := some false, calls := w.calls ++ [WsCall.ping] }

/-- The registry invariant: tickers and registry entries have the same keys, and
no registered connection set is empty. -/
def Inv (s : State) : Prop :=
  ∀ U : UserId, s.timerIntervals.has U = s.clients.has U ∧
    ∀ set, s.clients.get U = some set → set.elems ≠ []

/-- The ticker invariant: the interval of every ticker callback is the one whose
handle `timerIntervals` stores for its user; the heartbeat interval, scheduled
first, is live; and the handles stored in `timerIntervals` were issued after it. -/
def TickInv (s : State) : Prop :=
  (∀ i ∈ s.intervals, ∀ U, i.callback = Callback.sendActiveTimers U →
    s.timerIntervals.get U = some i.handle) ∧
  ({ handle := 0, callback := Callback.heartbeat, delay := 30000 } : Interval) ∈ s.intervals ∧
  (∀ p ∈ s.timerIntervals, 1 ≤ p.2) ∧
  1 ≤ s.nextHandle

/-- The step from `s` to `t` touched socket properties only. -/
def SocketsOnly (s t : State) : Prop :=
  t.clients = s.clients ∧ t.timerIntervals = s.timerIntervals ∧ t.intervals = s.intervals ∧
    t.nextHandle = s.nextHandle ∧ t.wssClients = s.wssClients ∧ t.wssClosed = s.wssClosed

/-- The properties written on a socket by the authenticated branch of the
`connection` handler, up to and including the `auth_success` send. -/
def authenticate (user : User) (w : Ws) : Ws :=
  { w with
    isAuthenticated := some true, userId := some user.id,
    username := some user.username, isAlive := some true,
    calls := w.calls ++ [WsCall.send (Msg.authSuccess "Authentication successful")] }

/-! ## Scenarios used to exercise the theorems -/

/-- The active timers of the demonstration store. -/
def demoActive : List Row :=
  [{ id := "t2", description := "write", start := 200, isActive := true,
     «end» := none, duration := none }]

/-- The completed timers of the demonstration store. -/
def demoCompleted : List Row :=
  [{ id := "t1", description := "read", start := 100, isActive := false,
     «end» := some 150, duration := some 50 }]

/-- A store with one active and one completed timer for every user. -/
def demoPool : Bool → UserId → Except String (List Row) := fun b _ =>
  if b then .ok demoActive else .ok demoCompleted

/-- One socket accepted and registered for user `u1`. -/
def oneTab : State :=
  onConnection (accept State.init 1) 1 (some "sess-1")
    (.ok (some { id := "u1", username := "ann" })) demoPool 300 301 302

/-- Two sockets accepted and registered for user `u1`. -/
def twoTabs : State :=
  onConnection (accept oneTab 2) 2 (some "sess-1")
    (.ok (some { id := "u1", username := "ann" })) demoPool 400 401 402

/-- A timer store whose queries all fail. -/
def downPool : Bool → UserId → Except String (List Row) := fun _ _ =>
  .error "ECONNREFUSED"

/-- A timer store whose query on completed timers fails. -/
def halfDownPool : Bool → UserId → Except String (List Row) := fun b _ =>
  if b then .ok demoActive else .error "ECONNREFUSED"

/-- Two sockets of user `u1`, the second one no longer open, and one socket of user `u2`. -/
def mixedTabs : State :=
  wsTerminate
    (onConnection (accept twoTabs 3) 3 (some "sess-2")
      (.ok (some { id := "u2", username := "bob" })) demoPool 500 501 502)
    2

/-- The active timers of the demonstration store as `db.getTimers` returns them at time `now`. -/
def demoActiveData (now : Int) : List TimerData :=
  [{ id := "t2", description := "write", start := 200, isActive := true,
     progress := some (now - 200), «end» := none, duration := none, currentTime := none }]

/-- The completed timers of the demonstration store as `db.getTimers` returns them. -/
def demoCompletedData : List TimerData :=
  [{ id := "t1", description := "read", start := 100, isActive := false,
     progress := none, «end» := some 150, duration := some 50, currentTime := none }]

/-- One socket accepted whose `connection` handler is suspended at the session lookup. -/
def pendingTab : State :=
  (onConnectionBegin (accept State.init 1) 1 (some "sess-1")).1

/-- The second argument of a `close` call; `none` for any other call. -/
def WsCall.closeCode : WsCall → Option Nat
  | .close code _ => some code
  | _ => none

/-! ## Lemmas on the containers -/

namespace JSMap

variable {κ ν : Type} [DecidableEq κ]

theorem has_eq_isSome (m : JSMap κ ν) (k : κ) : m.has k = (m.get k).isSome := by
  induction m with
  | nil => rfl
  | cons p m ih =>
    unfold has get at *
    by_cases h : p.1 = k <;> simp [List.find?, h, ih]

theorem has_iff (m : JSMap κ ν) (k : κ) : m.has k = true ↔ ∃ v, m.get k = some v := by
  rw [has_eq_isSome, Option.isSome_iff_exists]

theorem has_false_iff (m : JSMap κ ν) (k : κ) : m.has k = false ↔ m.get k = none := by
  rw [has_eq_isSome]
  cases m.get k <;> simp

theorem get_append_new (m : JSMap κ ν) (k k1 : κ) (v : ν) (h : m.has k = false) :
    get (m ++ [(k, v)]) k1 = if k1 = k then some v else m.get k1 := by
  induction m with
  | nil =>
    by_cases hk : k = k1
    · subst hk; simp [get, List.find?]
    · have hk1 : ¬ k1 = k := fun e => hk e.symm
      simp [get, List.find?, hk, hk1]
  | cons p m ih =>
    have hp : ¬ p.1 = k := by
      intro e
      simp [has, e] at h
    have hm : has m k = false := by
      simp [has, hp] at h
      simpa [has] using h
    by_cases hpk : p.1 = k1
    · have : ¬ k1 = k := fun e => hp (hpk.trans e)
      simp [get, List.find?, hpk, this]
    · have ih1 := ih hm
      simp only [get] at ih1
      simp only [get, List.cons_append, List.find?, hpk, decide_False]
      exact ih1

theorem get_map_replace (m : JSMap κ ν) (k k1 : κ) (v : ν) :
    get (m.map (fun p => if p.1 = k then (k, v) else p)) k1
      = if k1 = k then (if m.has k then some v else none) else m.get k1 := by
  induction m with
  | nil => simp [get, has]
  | cons p m ih =>
    simp only [get] at ih
    by_cases hpk : p.1 = k
    · by_cases hk : k1 = k
      · subst hk
        simp [get, has, List.find?, hpk]
      · have hk2 : ¬ k = k1 := fun e => hk e.symm
        have hp1 : ¬ p.1 = k1 := fun e => hk (e.symm.trans hpk)
        simp only [get, List.map_cons, hpk, if_true, List.find?, hk2, decide_False, hp1, hk,
          if_false]
        simpa [hk] using ih
    · by_cases hp1 : p.1 = k1
      · have hk : ¬ k1 = k := fun e => hpk (hp1.trans e)
        simp [get, List.find?, hpk, hp1, hk]
      · simp only [get, List.map_cons, hpk, if_false, List.find?, hp1, decide_False]
        by_cases hk : k1 = k
        · simp only [hk, if_true, has, List.any_cons, hpk, decide_False, Bool.false_or]
          simpa [hk, has] using ih
        · simpa [hk] using ih

theorem get_set (m : JSMap κ ν) (k k1 : κ) (v : ν) :
    (m.set k v).get k1 = if k1 = k then some v else m.get k1 := by
  unfold set
  by_cases h : m.has k = true
  · rw [if_pos h, get_map_replace, if_pos h]
  · have h0 : m.has k = false := by simpa using h
    rw [if_neg h, get_append_new m k k1 v h0]

theorem get_delete (m : JSMap κ ν) (k k1 : κ) :
    (m.delete k).get k1 = if k1 = k then none else m.get k1 := by
  induction m with
  | nil => simp [get, delete]
  | cons p m ih =>
    simp only [get, delete] at ih
    by_cases hpk : p.1 = k
    · by_cases hk : k1 = k
      · simp [get, delete, hpk, hk]
      · have hp1 : ¬ p.1 = k1 := fun e => hk (e.symm.trans hpk)
        have hk2 : ¬ k = k1 := fun e => hk e.symm
        simpa [get, delete, hpk, hk, hk2, hp1, List.find?] using ih
    · by_cases hp1 : p.1 = k1
      · have hk : ¬ k1 = k := fun e => hpk (hp1.trans e)
        simp [get, delete, List.filter, hpk, hp1, hk, List.find?]
      · simpa [get, delete, List.filter, hpk, hp1, List.find?] using ih

theorem has_set (m : JSMap κ ν) (k k1 : κ) (v : ν) :
    (m.set k v).has k1 = (decide (k1 = k) || m.has k1) := by
  rw [has_eq_isSome, has_eq_isSome, get_set]
  by_cases h : k1 = k <;> simp [h]

theorem has_delete (m : JSMap κ ν) (k k1 : κ) :
    (m.delete k).has k1 = (!decide (k1 = k) && m.has k1) := by
  rw [has_eq_isSome, has_eq_isSome, get_delete]
  by_cases h : k1 = k <;> simp [h]

end JSMap

namespace JSSet

variable {α : Type} [DecidableEq α]

theorem mem_add (s : JSSet α) (a x : α) : x ∈ (s.add a).elems ↔ x ∈ s.elems ∨ x = a := by
  unfold add elems
  by_cases h : a ∈ s.val
  · rw [dif_pos h]
    constructor
    · exact Or.inl
    · rintro (h1 | h1)
      · exact h1
      · exact h1 ▸ h
  · rw [dif_neg h]
    simp

omit [DecidableEq α] in
theorem size_eq_zero (s : JSSet α) : s.size = 0 ↔ s.elems = [] := by
  simp [size, elems]

theorem add_ne_nil (s : JSSet α) (a : α) : (s.add a).elems ≠ [] := by
  intro h
  have : a ∈ (s.add a).elems := (mem_add s a a).2 (Or.inr rfl)
  rw [h] at this
  exact List.not_mem_nil a this

end JSSet

/-! ## Frame lemmas -/

@[simp] theorem setWs_clients (s : State) (c : ConnId) (f : Ws → Ws) :
    (setWs s c f).clients = s.clients := rfl

@[simp] theorem setWs_timerIntervals (s : State) (c : ConnId) (f : Ws → Ws) :
    (setWs s c f).timerIntervals = s.timerIntervals := rfl

@[simp] theorem setWs_intervals (s : State) (c : ConnId) (f : Ws → Ws) :
    (setWs s c f).intervals = s.intervals := rfl

@[simp] theorem setWs_nextHandle (s : State) (c : ConnId) (f : Ws → Ws) :
    (setWs s c f).nextHandle = s.nextHandle := rfl

@[simp] theorem setWs_wssClients (s : State) (c : ConnId) (f : Ws → Ws) :
    (setWs s c f).wssClients = s.wssClients := rfl

@[simp] theorem setWs_wssClosed (s : State) (c : ConnId) (f : Ws → Ws) :
    (setWs s c f).wssClosed = s.wssClosed := rfl

@[simp] theorem setWs_sockets_same (s : State) (c : ConnId) (f : Ws → Ws) :
    (setWs s c f).sockets c = f (s.sockets c) := by
  simp [setWs]

theorem setWs_sockets_ne (s : State) (c d : ConnId) (f : Ws → Ws) (h : d ≠ c) :
    (setWs s c f).sockets d = s.sockets d := by
  simp [setWs, Function.update_noteq h]

theorem setWs_sockets (s : State) (c d : ConnId) (f : Ws → Ws) :
    (setWs s c f).sockets d = if d = c then f (s.sockets c) else s.sockets d := by
  by_cases h : d = c
  · subst h; simp
  · simp [h, setWs_sockets_ne s c d f h]

theorem setWs_setWs (s : State) (c : ConnId) (f g : Ws → Ws) :
    setWs (setWs s c f) c g = setWs s c (fun w => g (f w)) := by
  simp [setWs]

theorem foldl_setWs (g : Ws → Ws) (l : List ConnId) (hl : l.Nodup) (s : State) :
    l.foldl (fun st c => setWs st c g) s
      = { s with sockets := fun c => if c ∈ l then g (s.sockets c) else s.sockets c } := by
  induction l generalizing s with
  | nil => simp
  | cons a l ih =>
    have hnd := List.nodup_cons.1 hl
    rw [List.foldl_cons, ih hnd.2]
    apply State.ext <;> try rfl
    funext c
    by_cases hc : c ∈ l
    · have hne : c ≠ a := fun e => hnd.1 (e ▸ hc)
      simp [hc, setWs_sockets_ne s a c g hne]
    · by_cases hca : c = a
      · subst hca; simp [hc]
      · simp [hc, hca, setWs_sockets_ne s a c g hca]

theorem sendToOpen_eq (s : State) (set : JSSet ConnId) (m : Msg) :
    sendToOpen s set m
      = { s with sockets := fun c =>
            if c ∈ set.elems then sendIfOpen m (s.sockets c) else s.sockets c } := by
  have h : (fun (st : State) (client : ConnId) =>
      if (st.sockets client).readyState = .OPEN then wsSend st client m else st)
      = fun st c => setWs st c (sendIfOpen m) := by
    funext st c
    by_cases ho : (st.sockets c).readyState = .OPEN
    · simp [ho, wsSend, setWs, sendIfOpen]
    · simp [ho, setWs, sendIfOpen]
  unfold sendToOpen
  rw [h]
  exact foldl_setWs (sendIfOpen m) set.elems set.property s

theorem pingOne_eq (s : State) (c : ConnId) : pingOne s c = setWs s c pingWs := by
  unfold pingOne
  by_cases h : truthyOptBool (s.sockets c).isAlive = true
  · simp [h, wsPing, setWs_setWs, pingWs, setWs]
  · simp [h, wsTerminate, pingWs, setWs]

theorem heartbeat_eq (s : State) :
    heartbeat s
      = { s with sockets := fun c =>
            if c ∈ s.wssClients.elems then pingWs (s.sockets c) else s.sockets c } := by
  have h : pingOne = fun st c => setWs st c pingWs := by
    funext st c
    exact pingOne_eq st c
  unfold heartbeat
  rw [h]
  exact foldl_setWs pingWs s.wssClients.elems s.wssClients.property s

theorem socketsOnly_refl (s : State) : SocketsOnly s s :=
  ⟨rfl, rfl, rfl, rfl, rfl, rfl⟩

theorem socketsOnly_setWs (s : State) (c : ConnId) (f : Ws → Ws) : SocketsOnly s (setWs s c f) :=
  ⟨rfl, rfl, rfl, rfl, rfl, rfl⟩

theorem socketsOnly_trans {s t u : State} (h1 : SocketsOnly s t) (h2 : SocketsOnly t u) :
    SocketsOnly s u := by
  obtain ⟨a1, a2, a3, a4, a5, a6⟩ := h1
  obtain ⟨b1, b2, b3, b4, b5, b6⟩ := h2
  exact ⟨b1.trans a1, b2.trans a2, b3.trans a3, b4.trans a4, b5.trans a5, b6.trans a6⟩

theorem socketsOnly_sendToOpen (s : State) (set : JSSet ConnId) (m : Msg) :
    SocketsOnly s (sendToOpen s set m) := by
  rw [sendToOpen_eq]
  exact ⟨rfl, rfl, rfl, rfl, rfl, rfl⟩

theorem socketsOnly_sendAllTimers (s : State) (pool : Bool → UserId → Except String (List Row))
    (U : UserId) (t1 t2 now : Int) : SocketsOnly s (sendAllTimers s pool U t1 t2 now) := by
  unfold sendAllTimers
  split
  · exact socketsOnly_refl s
  · split
    · exact socketsOnly_refl s
    · dsimp only
      split
      · split
        · exact socketsOnly_refl s
        · exact socketsOnly_sendToOpen s _ _
      · exact socketsOnly_refl s

theorem socketsOnly_sendActiveTimers (s : State)
    (pool : Bool → UserId → Except String (List Row))
    (U : UserId) (t1 now : Int) : SocketsOnly s (sendActiveTimers s pool U t1 now) := by
  unfold sendActiveTimers
  split
  · exact socketsOnly_refl s
  · split
    · split
      · exact socketsOnly_refl s
      · exact socketsOnly_sendToOpen s _ _
    · exact socketsOnly_refl s

theorem socketsOnly_handleMessage (s : State) (c : ConnId) (parsed : Except String Json)
    (now : Int) : SocketsOnly s (handleMessage s c parsed now) := by
  unfold handleMessage
  split
  · exact socketsOnly_refl s
  · split
    · exact socketsOnly_setWs s c _
    · split
      · exact socketsOnly_refl s
      · split
        · exact socketsOnly_setWs s c _
        · exact socketsOnly_refl s
      · exact socketsOnly_refl s

theorem socketsOnly_onPong (s : State) (c : ConnId) : SocketsOnly s (onPong s c) :=
  socketsOnly_setWs s c _

theorem socketsOnly_heartbeat (s : State) : SocketsOnly s (heartbeat s) := by
  rw [heartbeat_eq]
  exact ⟨rfl, rfl, rfl, rfl, rfl, rfl⟩

theorem socketsOnly_reject (s : State) (c : ConnId) (m : Msg) (code : Nat) (reason : String) :
    SocketsOnly s (wsClose (wsSend s c m) c code reason) :=
  ⟨rfl, rfl, rfl, rfl, rfl, rfl⟩

theorem inv_of_registry_eq {s t : State} (hc : t.clients = s.clients)
    (ht : t.timerIntervals = s.timerIntervals) (h : Inv s) : Inv t := by
  intro U
  rw [hc, ht]
  exact h U

theorem inv_of_socketsOnly {s t : State} (hst : SocketsOnly s t) (h : Inv s) : Inv t :=
  inv_of_registry_eq hst.1 hst.2.1 h

/-! ## Tickers -/

theorem startTimerInterval_of_has (s : State) (U : UserId) (h : s.timerIntervals.has U = true) :
    startTimerInterval s U = s := by
  simp [startTimerInterval, h]

theorem startTimerInterval_clients (s : State) (U : UserId) :
    (startTimerInterval s U).clients = s.clients := by
  unfold startTimerInterval
  split <;> rfl

theorem startTimerInterval_sockets (s : State) (U : UserId) :
    (startTimerInterval s U).sockets = s.sockets := by
  unfold startTimerInterval
  split <;> rfl

theorem startTimerInterval_has (s : State) (U V : UserId) :
    (startTimerInterval s U).timerIntervals.has V
      = (decide (V = U) || s.timerIntervals.has V) := by
  unfold startTimerInterval
  by_cases h : s.timerIntervals.has U = true
  · rw [if_pos h]
    by_cases hv : V = U
    · subst hv; simp [h]
    · simp [hv]
  · rw [if_neg h]
    simp [setInterval, JSMap.has_set]

theorem stopTimerInterval_clients (s : State) (U : UserId) :
    (stopTimerInterval s U).clients = s.clients := by
  unfold stopTimerInterval
  split
  · split <;> rfl
  · rfl

theorem stopTimerInterval_get (s : State) (U V : UserId) :
    (stopTimerInterval s U).timerIntervals.get V
      = if V = U then none else s.timerIntervals.get V := by
  unfold stopTimerInterval
  by_cases h : s.timerIntervals.has U = true
  · rw [if_pos h]
    obtain ⟨v, hv⟩ := (JSMap.has_iff _ _).1 h
    simp [hv, clearInterval, JSMap.get_delete]
  · rw [if_neg h]
    have h0 : s.timerIntervals.get U = none := by
      rw [← JSMap.has_false_iff]; simpa using h
    by_cases hv : V = U
    · subst hv; simp [h0]
    · simp [hv]

theorem stopTimerInterval_has (s : State) (U V : UserId) :
    (stopTimerInterval s U).timerIntervals.has V
      = (!decide (V = U) && s.timerIntervals.has V) := by
  rw [JSMap.has_eq_isSome, JSMap.has_eq_isSome, stopTimerInterval_get]
  by_cases hv : V = U <;> simp [hv]

/-! ## The authenticated branch of the `connection` handler -/

theorem onConnectionResume_user (s : State) (ws : ConnId) (user : User)
    (pool : Bool → UserId → Except String (List Row)) (t1 t2 now : Int) :
    ∃ (set0 : JSSet ConnId) (s4 : State),
      (s.clients.get user.id = some set0 ∨
        (s.clients.get user.id = none ∧ set0 = JSSet.empty)) ∧
      (∀ V, s4.clients.get V = if V = user.id then some (set0.add ws) else s.clients.get V) ∧
      (∀ V, s4.timerIntervals.has V
        = ((decide (V = user.id) && !s.clients.has user.id) || s.timerIntervals.has V)) ∧
      (s.timerIntervals.has user.id = true →
        s4.timerIntervals = s.timerIntervals ∧ s4.intervals = s.intervals ∧
          s4.nextHandle = s.nextHandle) ∧
      s4.sockets = (setWs s ws (authenticate user)).sockets ∧
      s4.wssClients = s.wssClients ∧
      onConnectionResume s ws (.ok (some user)) pool t1 t2 now
        = setWs (sendAllTimers s4 pool user.id t1 t2 now) ws
            (fun w => { w with listening := true }) := by
  by_cases hc : s.clients.has user.id = true
  · obtain ⟨set0, hset0⟩ := (JSMap.has_iff _ _).1 hc
    refine ⟨set0, wsSend { setWs s ws (fun w => { w with
        isAuthenticated := some true, userId := some user.id,
        username := some user.username, isAlive := some true }) with
        clients := s.clients.set user.id (set0.add ws) } ws
        (Msg.authSuccess "Authentication successful"), Or.inl hset0, ?_, ?_, ?_, ?_, rfl, ?_⟩
    · intro V
      simp [wsSend, JSMap.get_set]
    · intro V
      simp [wsSend, hc]
    · intro _
      exact ⟨rfl, rfl, rfl⟩
    · simp [wsSend, setWs, authenticate]
    · simp [onConnectionResume, hc, hset0]
  · have hc0 : s.clients.has user.id = false := by simpa using hc
    have hn : s.clients.get user.id = none := (JSMap.has_false_iff _ _).1 hc0
    refine ⟨JSSet.empty, wsSend { startTimerInterval { setWs s ws (fun w => { w with
        isAuthenticated := some true, userId := some user.id,
        username := some user.username, isAlive := some true }) with
        clients := s.clients.set user.id JSSet.empty } user.id with
        clients := (s.clients.set user.id JSSet.empty).set user.id (JSSet.empty.add ws) } ws
        (Msg.authSuccess "Authentication successful"), Or.inr ⟨hn, rfl⟩, ?_, ?_, ?_, ?_, ?_, ?_⟩
    · intro V
      simp only [wsSend, setWs_clients, JSMap.get_set]
      by_cases hv : V = user.id <;> simp [hv]
    · intro V
      simp [wsSend, startTimerInterval_has, hc0]
    · intro ht
      rw [startTimerInterval_of_has _ _ (by simpa using ht)]
      exact ⟨rfl, rfl, rfl⟩
    · simp [wsSend, setWs, authenticate, startTimerInterval_sockets]
    · simp only [wsSend, setWs_wssClients]
      unfold startTimerInterval
      split <;> rfl
    · simp only [onConnectionResume, setWs_clients, hc0, Bool.not_false, if_true]
      have hg : (startTimerInterval { setWs s ws (fun w => { w with
          isAuthenticated := some true, userId := some user.id,
          username := some user.username, isAlive := some true }) with
          clients := s.clients.set user.id JSSet.empty } user.id).clients.get user.id
          = some JSSet.empty := by
        rw [startTimerInterval_clients]
        simp [JSMap.get_set]
      rw [hg]
      simp only [startTimerInterval_clients]

theorem inv_init : Inv State.init := by
  intro U
  constructor
  · rfl
  · intro set h
    simp [State.init, startPingInterval, setInterval, JSMap.get] at h

theorem inv_onConnection (s : State) (ws : ConnId) (sessionId : Option String)
    (lookup : Except String (Option User))
    (pool : Bool → UserId → Except String (List Row)) (t1 t2 now : Int) (h : Inv s) :
    Inv (onConnection s ws sessionId lookup pool t1 t2 now) := by
  unfold onConnection onConnectionBegin
  by_cases hs : truthyOptStr sessionId = true
  · simp only [hs, Bool.not_true, Bool.false_eq_true, if_false, if_true]
    have h1 : Inv (setWs s ws (fun w => { w with isAuthenticated := some false })) :=
      inv_of_socketsOnly (socketsOnly_setWs s ws _) h
    generalize setWs s ws (fun w => { w with isAuthenticated := some false }) = s1 at h1
    match lookup with
    | .error _ => exact inv_of_socketsOnly (socketsOnly_reject s1 ws _ _ _) h1
    | .ok none => exact inv_of_socketsOnly (socketsOnly_reject s1 ws _ _ _) h1
    | .ok (some user) =>
      obtain ⟨set0, s4, _, hcl, hti, _, _, _, heq⟩ :=
        onConnectionResume_user s1 ws user pool t1 t2 now
      rw [heq]
      refine inv_of_socketsOnly
        (socketsOnly_trans (socketsOnly_sendAllTimers s4 pool user.id t1 t2 now)
          (socketsOnly_setWs _ ws _)) ?_
      intro U
      constructor
      · rw [hti, JSMap.has_eq_isSome s4.clients, hcl]
        by_cases hu : U = user.id
        · rw [hu]
          by_cases hc : s1.clients.has user.id = true
          · simp [hc, (h1 user.id).1]
          · simp [hc]
        · simp [hu, (h1 U).1, JSMap.has_eq_isSome]
      · intro set hset
        rw [hcl] at hset
        by_cases hu : U = user.id
        · simp only [hu, if_true, Option.some.injEq] at hset
          rw [← hset]
          exact JSSet.add_ne_nil set0 ws
        · simp only [hu, if_false] at hset
          exact (h1 U).2 set hset
  · have hs0 : truthyOptStr sessionId = false := by simpa using hs
    simp only [hs0, Bool.not_false, if_true, Bool.false_eq_true, if_false]
    exact inv_of_socketsOnly
      (socketsOnly_trans (socketsOnly_setWs s ws _) (socketsOnly_reject _ ws _ _ _)) h

/-! ## `handleDisconnect` -/

theorem handleDisconnect_falsy (s : State) (c : ConnId) (U : UserId)
    (hU : (s.sockets c).userId = some U) (ht : truthyStr U = false) :
    handleDisconnect s c = s := by
  simp [handleDisconnect, hU, ht]

theorem inv_handleDisconnect (s : State) (c : ConnId) (h : Inv s) :
    Inv (handleDisconnect s c) := by
  unfold handleDisconnect
  split
  · exact h
  · rename_i U hU
    split
    · split
      · exact h
      · rename_i set hset
        have hhas : s.clients.has U = true := (JSMap.has_iff _ _).2 ⟨set, hset⟩
        dsimp only
        split
        · intro V
          constructor
          · rw [stopTimerInterval_has, stopTimerInterval_clients]
            simp only [JSMap.has_delete, JSMap.has_set]
            by_cases hv : V = U
            · simp [hv]
            · simp [hv, (h V).1]
          · intro set1 hset1
            rw [stopTimerInterval_clients] at hset1
            simp only [JSMap.get_delete, JSMap.get_set] at hset1
            by_cases hv : V = U
            · simp [hv] at hset1
            · simp only [hv, if_false] at hset1
              exact (h V).2 set1 hset1
        · rename_i hsz
          intro V
          constructor
          · simp only [JSMap.has_set]
            by_cases hv : V = U
            · rw [hv, (h U).1, hhas]; simp
            · simp [hv, (h V).1]
          · intro set1 hset1
            simp only [JSMap.get_set] at hset1
            by_cases hv : V = U
            · simp only [hv, if_true, Option.some.injEq] at hset1
              rw [← hset1]
              intro he
              exact hsz ((JSSet.size_eq_zero _).2 he)
            · simp only [hv, if_false] at hset1
              exact (h V).2 set1 hset1
    · exact h

theorem inv_accept (s : State) (c : ConnId) (h : Inv s) : Inv (accept s c) :=
  inv_of_registry_eq rfl rfl h

theorem inv_step {s t : State} (hst : Step s t) (h : Inv s) : Inv t := by
  cases hst with
  | connection ws sessionId lookup pool t1 t2 now =>
    exact inv_onConnection s ws sessionId lookup pool t1 t2 now h
  | disconnect ws => exact inv_handleDisconnect s ws h
  | message ws parsed now => exact inv_of_socketsOnly (socketsOnly_handleMessage s ws parsed now) h
  | pong ws => exact inv_of_socketsOnly (socketsOnly_onPong s ws) h
  | tick pool userId t1 now =>
    exact inv_of_socketsOnly (socketsOnly_sendActiveTimers s pool userId t1 now) h
  | notify pool userId t1 t2 now =>
    exact inv_of_socketsOnly (socketsOnly_sendAllTimers s pool userId t1 t2 now) h
  | heartbeat => exact inv_of_socketsOnly (socketsOnly_heartbeat s) h
  | accept ws => exact inv_accept s ws h

theorem inv_of_reachable {s : State} (h : Reachable s) : Inv s := by
  induction h with
  | init => exact inv_init
  | step s t _ hst ih => exact inv_step hst ih

theorem inv_ticker_iff {s : State} (h : Inv s) (U : UserId) :
    s.timerIntervals.has U = true ↔ ∃ set, s.clients.get U = some set ∧ set.elems ≠ [] := by
  rw [(h U).1, JSMap.has_iff]
  constructor
  · rintro ⟨set, hset⟩
    exact ⟨set, hset, (h U).2 set hset⟩
  · rintro ⟨set, hset, _⟩
    exact ⟨set, hset⟩

theorem reachable_oneTab : Reachable oneTab :=
  Reachable.step _ _ (Reachable.step _ _ Reachable.init (Step.accept _ 1))
    (Step.connection _ 1 _ _ _ _ _ _)

theorem reachable_twoTabs : Reachable twoTabs :=
  Reachable.step _ _ (Reachable.step _ _ reachable_oneTab (Step.accept _ 2))
    (Step.connection _ 2 _ _ _ _ _ _)

theorem onConnection_tickers (s : State) (U : UserId) (h : s.timerIntervals.has U = true)
    (ws : ConnId) (sessionId : Option String) (username : String)
    (pool : Bool → UserId → Except String (List Row)) (t1 t2 now : Int) :
    (onConnection s ws sessionId (.ok (some { id := U, username := username }))
        pool t1 t2 now).timerIntervals = s.timerIntervals ∧
    (onConnection s ws sessionId (.ok (some { id := U, username := username }))
        pool t1 t2 now).intervals = s.intervals ∧
    (onConnection s ws sessionId (.ok (some { id := U, username := username }))
        pool t1 t2 now).nextHandle = s.nextHandle := by
  unfold onConnection onConnectionBegin
  by_cases hs : truthyOptStr sessionId = true
  · simp only [hs, Bool.not_true, Bool.false_eq_true, if_false, if_true]
    obtain ⟨set0, s4, _, _, _, hk, _, _, heq⟩ :=
      onConnectionResume_user (setWs s ws (fun w => { w with isAuthenticated := some false }))
        ws { id := U, username := username } pool t1 t2 now
    rw [heq]
    obtain ⟨k1, k2, k3⟩ := hk h
    have hso := socketsOnly_trans (socketsOnly_sendAllTimers s4 pool U t1 t2 now)
      (socketsOnly_setWs _ ws (fun w => { w with listening := true }))
    exact ⟨hso.2.1.trans k1, hso.2.2.1.trans k2, hso.2.2.2.1.trans k3⟩
  · have hs0 : truthyOptStr sessionId = false := by simpa using hs
    simp only [hs0, Bool.not_false, if_true, Bool.false_eq_true, if_false]
    exact ⟨rfl, rfl, rfl⟩

/-! ## The claims -/

/-- C1: in every state reachable from the constructed manager by connection
handler runs, `handleDisconnect` calls and the other handlers, `timerIntervals`
has an entry for a user exactly when `clients` has an entry for that user whose
connection set is non-empty. -/
theorem ticker_iff_nonempty_connections (s : State) (h : Reachable s) (U : UserId) :
    s.timerIntervals.has U = true ↔ ∃ set, s.clients.get U = some set ∧ set.elems ≠ [] :=
  inv_ticker_iff (inv_of_reachable h) U

theorem ticker_iff_nonempty_connections_witness :
    Reachable twoTabs ∧
      (twoTabs.timerIntervals.has "u1" = true ↔
        ∃ set, twoTabs.clients.get "u1" = some set ∧ set.elems ≠ []) :=
  ⟨reachable_twoTabs, ticker_iff_nonempty_connections twoTabs reachable_twoTabs "u1"⟩

/-- C2: when a user already has a ticker, `startTimerInterval` returns the state
unchanged (no new interval is scheduled), and a further run of the `connection`
handler resolving to that user leaves `timerIntervals`, the scheduled intervals
and the handle counter as they were. -/
theorem startTimerInterval_existing_ticker (s : State) (U : UserId)
    (h : s.timerIntervals.has U = true) :
    startTimerInterval s U = s ∧
    ∀ (ws : ConnId) (sessionId : Option String) (username : String)
      (pool : Bool → UserId → Except String (List Row)) (t1 t2 now : Int),
      (onConnection s ws sessionId (.ok (some { id := U, username := username }))
          pool t1 t2 now).timerIntervals = s.timerIntervals ∧
      (onConnection s ws sessionId (.ok (some { id := U, username := username }))
          pool t1 t2 now).intervals = s.intervals ∧
      (onConnection s ws sessionId (.ok (some { id := U, username := username }))
          pool t1 t2 now).nextHandle = s.nextHandle :=
  ⟨startTimerInterval_of_has s U h, fun ws sessionId username pool t1 t2 now =>
    onConnection_tickers s U h ws sessionId username pool t1 t2 now⟩

theorem startTimerInterval_existing_ticker_witness :
    oneTab.timerIntervals.has "u1" = true ∧
    (startTimerInterval oneTab "u1" = oneTab ∧
    ∀ (ws : ConnId) (sessionId : Option String) (username : String)
      (pool : Bool → UserId → Except String (List Row)) (t1 t2 now : Int),
      (onConnection oneTab ws sessionId (.ok (some { id := "u1", username := username }))
          pool t1 t2 now).timerIntervals = oneTab.timerIntervals ∧
      (onConnection oneTab ws sessionId (.ok (some { id := "u1", username := username }))
          pool t1 t2 now).intervals = oneTab.intervals ∧
      (onConnection oneTab ws sessionId (.ok (some { id := "u1", username := username }))
          pool t1 t2 now).nextHandle = oneTab.nextHandle) :=
  ⟨by decide, startTimerInterval_existing_ticker oneTab "u1" (by decide)⟩

theorem sendAllTimers_ok (s : State) (pool : Bool → UserId → Except String (List Row))
    (U : UserId) (t1 t2 now : Int) (A S : List TimerData) (set : JSSet ConnId)
    (hA : getTimers pool U "true" t1 = .ok A) (hS : getTimers pool U "false" t2 = .ok S)
    (hset : s.clients.get U = some set) :
    sendAllTimers s pool U t1 t2 now = sendToOpen s set (Msg.allTimers (A ++ S) now) := by
  have hhas : s.clients.has U = true := (JSMap.has_iff _ _).2 ⟨set, hset⟩
  simp [sendAllTimers, hA, hS, hhas, hset]

/-- C6, as stated, fails: a connection without a session token and a connection
whose token does not resolve are both closed with code 1008; only the reason
text differs. -/
theorem reject_close_codes_coincide :
    ((onConnection (accept State.init 1) 1 none (.ok none) demoPool 0 0 0).sockets 1).calls
      = [WsCall.send (Msg.authError "No session provided"),
         WsCall.close 1008 "No session provided"] ∧
    ((onConnection (accept State.init 1) 1 (some "stale") (.ok none) demoPool 0 0 0).sockets
        1).calls
      = [WsCall.send (Msg.authError "Invalid session"), WsCall.close 1008 "Invalid session"] ∧
    (((onConnection (accept State.init 1) 1 none (.ok none) demoPool 0 0 0).sockets 1).calls.map
        WsCall.closeCode)
      = (((onConnection (accept State.init 1) 1 (some "stale") (.ok none) demoPool 0 0 0).sockets
          1).calls.map WsCall.closeCode) := by
  decide

/-- C6 (amended): a connection rejected for lack of a session token, or because
its token resolves to no identity, gets one `auth_error` send followed by a
`close` with code 1008 in both cases, the two being told apart by the error and
reason text only (`No session provided` against `Invalid session`); code 1008
differs from the code 1011 that the `catch` block uses after its own
`auth_error` send when the session lookup fails unexpectedly. -/
theorem rejected_connection_calls (s : State) (ws : ConnId) (sessionId : Option String)
    (lookup : Except String (Option User))
    (pool : Bool → UserId → Except String (List Row)) (t1 t2 now : Int) :
    (truthyOptStr sessionId = false →
      ((onConnection s ws sessionId lookup pool t1 t2 now).sockets ws).calls
        = (s.sockets ws).calls ++ [WsCall.send (Msg.authError "No session provided"),
            WsCall.close 1008 "No session provided"]) ∧
    (truthyOptStr sessionId = true → lookup = .ok none →
      ((onConnection s ws sessionId lookup pool t1 t2 now).sockets ws).calls
        = (s.sockets ws).calls ++ [WsCall.send (Msg.authError "Invalid session"),
            WsCall.close 1008 "Invalid session"]) ∧
    (truthyOptStr sessionId = true → (∃ e, lookup = .error e) →
      ((onConnection s ws sessionId lookup pool t1 t2 now).sockets ws).calls
        = (s.sockets ws).calls ++ [WsCall.send (Msg.authError "Internal server error"),
            WsCall.close 1011 "Internal server error"]) ∧
    ((1008 : Nat) ≠ 1011 ∧ "No session provided" ≠ "Invalid session") := by
  refine ⟨?_, ?_, ?_, by decide, by decide⟩
  · intro h
    simp [onConnection, onConnectionBegin, h, wsClose, wsSend]
  · intro h hl
    subst hl
    simp [onConnection, onConnectionBegin, onConnectionResume, h, wsClose, wsSend]
  · rintro h ⟨e, hl⟩
    subst hl
    simp [onConnection, onConnectionBegin, onConnectionResume, connectionCatch, h, wsClose,
      wsSend]

theorem rejected_connection_calls_witness :
    truthyOptStr (some "stale") = true ∧
    ((onConnection (accept State.init 1) 1 (some "stale") (.ok none) demoPool 0 0 0).sockets
        1).calls
      = ((accept State.init 1).sockets 1).calls ++
          [WsCall.send (Msg.authError "Invalid session"), WsCall.close 1008 "Invalid session"] :=
  ⟨by decide,
    (rejected_connection_calls (accept State.init 1) 1 (some "stale") (.ok none) demoPool
      0 0 0).2.1 (by decide) rfl⟩

theorem sendToOpen_calls (s : State) (set : JSSet ConnId) (m : Msg) (c : ConnId) :
    ((sendToOpen s set m).sockets c)
      = if c ∈ set.elems ∧ (s.sockets c).readyState = ReadyState.OPEN then
          { s.sockets c with calls := (s.sockets c).calls ++ [WsCall.send m] }
        else s.sockets c := by
  rw [sendToOpen_eq]
  by_cases hc : c ∈ set.elems
  · by_cases ho : (s.sockets c).readyState = ReadyState.OPEN
    · simp [hc, ho, sendIfOpen]
    · simp [hc, ho, sendIfOpen]
  · simp [hc]

/-- C7: when the store returns an active list holding only active entries and a
completed list holding only inactive entries, each ordered by `start`
descending, the `all_timers` message of `sendAllTimers` carries the active list
followed by the completed list: no completed entry precedes an active one, and
within each group `start` is non-increasing.  Every open socket of the user gets
that one message, and no socket gets anything else. -/
theorem sendAllTimers_active_first (s : State)
    (pool : Bool → UserId → Except String (List Row)) (U : UserId) (t1 t2 now : Int)
    (A S : List TimerData)
    (hA : getTimers pool U "true" t1 = .ok A) (hS : getTimers pool U "false" t2 = .ok S)
    (hAa : ∀ a ∈ A, a.isActive = true) (hSa : ∀ b ∈ S, b.isActive = false)
    (hAs : A.Pairwise (fun x y => y.start ≤ x.start))
    (hSs : S.Pairwise (fun x y => y.start ≤ x.start)) :
    ∃ data : List TimerData,
      data = A ++ S ∧
      data.Pairwise (fun x y => ¬ (x.isActive = false ∧ y.isActive = true)) ∧
      data.Pairwise (fun x y => x.isActive = y.isActive → y.start ≤ x.start) ∧
      (∀ c, ((sendAllTimers s pool U t1 t2 now).sockets c).calls = (s.sockets c).calls ∨
        ((sendAllTimers s pool U t1 t2 now).sockets c).calls
          = (s.sockets c).calls ++ [WsCall.send (Msg.allTimers data now)]) ∧
      (∀ set, s.clients.get U = some set → ∀ c ∈ set.elems,
        (s.sockets c).readyState = ReadyState.OPEN →
        ((sendAllTimers s pool U t1 t2 now).sockets c).calls
          = (s.sockets c).calls ++ [WsCall.send (Msg.allTimers data now)]) := by
  refine ⟨A ++ S, rfl, ?_, ?_, ?_, ?_⟩
  · rw [List.pairwise_append]
    refine ⟨?_, ?_, ?_⟩
    · exact List.Pairwise.imp_of_mem (fun {x y} hx _ _ h => by
        rw [hAa x hx] at h; exact absurd h.1 (by decide)) hAs
    · exact List.Pairwise.imp_of_mem (fun {x y} _ hy _ h => by
        rw [hSa y hy] at h; exact absurd h.2 (by decide)) hSs
    · intro x hx y _ h
      rw [hAa x hx] at h
      exact absurd h.1 (by decide)
  · rw [List.pairwise_append]
    refine ⟨List.Pairwise.imp (fun {x y} (h : y.start ≤ x.start)
          (_ : x.isActive = y.isActive) => h) hAs,
        List.Pairwise.imp (fun {x y} (h : y.start ≤ x.start)
          (_ : x.isActive = y.isActive) => h) hSs, ?_⟩
    intro x hx y hy h
    rw [hAa x hx, hSa y hy] at h
    exact absurd h (by decide)
  · intro c
    cases hset : s.clients.get U with
    | none =>
      left
      have hhas : s.clients.has U = false := (JSMap.has_false_iff _ _).2 hset
      simp [sendAllTimers, hA, hS, hhas]
    | some set =>
      rw [sendAllTimers_ok s pool U t1 t2 now A S set hA hS hset, sendToOpen_calls]
      by_cases h : c ∈ set.elems ∧ (s.sockets c).readyState = ReadyState.OPEN
      · right; rw [if_pos h]
      · left; rw [if_neg h]
  · intro set hset c hc ho
    rw [sendAllTimers_ok s pool U t1 t2 now A S set hA hS hset, sendToOpen_calls,
      if_pos ⟨hc, ho⟩]

theorem sendAllTimers_active_first_witness :
    ∃ data : List TimerData,
      data.map (fun d => (d.id, d.isActive, d.start)) = [("t2", true, 200), ("t1", false, 100)] ∧
      ((sendAllTimers oneTab demoPool "u1" 500 501 502).sockets 1).calls
        = (oneTab.sockets 1).calls ++ [WsCall.send (Msg.allTimers data 502)] := by
  obtain ⟨data, hd, _, _, _, h⟩ := sendAllTimers_active_first oneTab demoPool "u1" 500 501 502
    [{ id := "t2", description := "write", start := 200, isActive := true,
       progress := some 300, «end» := none, duration := none, currentTime := none }]
    [{ id := "t1", description := "read", start := 100, isActive := false,
       progress := none, «end» := some 150, duration := some 50, currentTime := none }]
    rfl rfl (by decide) (by decide) (by decide) (by decide)
  refine ⟨data, ?_, h ⟨[1], by decide⟩ (by decide) 1 (by decide) (by decide)⟩
  rw [hd]
  decide

theorem sendActiveTimers_ok (s : State) (pool : Bool → UserId → Except String (List Row))
    (U : UserId) (t1 now : Int) (fetched : List TimerData) (set : JSSet ConnId)
    (hf : getTimers pool U "true" t1 = .ok fetched) (hset : s.clients.get U = some set) :
    sendActiveTimers s pool U t1 now
      = sendToOpen s set (Msg.activeTimers (timersWithProgress fetched now) now) := by
  have hhas : s.clients.has U = true := (JSMap.has_iff _ _).2 ⟨set, hset⟩
  simp [sendActiveTimers, hf, hhas, hset]

/-- C8: on a tick of a registered user whose fetch succeeds, with `now` the clock
reading of the tick, every open socket of the user gets exactly one
`active_timers` message stamped `now`, whose data have the length and the order
of the fetched list, each entry keeping its id, description, start and active
flag and carrying `progress = now - start` whatever progress the store supplied;
this holds for the empty list too.  Sockets that are not open or belong to
another set are untouched. -/
theorem sendActiveTimers_tick (s : State) (pool : Bool → UserId → Except String (List Row))
    (U : UserId) (t1 now : Int) (fetched : List TimerData) (set : JSSet ConnId)
    (hf : getTimers pool U "true" t1 = .ok fetched) (hset : s.clients.get U = some set) :
    ∃ data : List TimerData,
      data.length = fetched.length ∧
      List.Forall₂ (fun d f => d.progress = some (now - f.start) ∧ d.id = f.id ∧
        d.description = f.description ∧ d.start = f.start ∧ d.isActive = f.isActive)
        data fetched ∧
      (∀ c ∈ set.elems, (s.sockets c).readyState = ReadyState.OPEN →
        (sendActiveTimers s pool U t1 now).sockets c
          = { s.sockets c with
              calls := (s.sockets c).calls ++ [WsCall.send (Msg.activeTimers data now)] }) ∧
      (∀ c, ¬ (c ∈ set.elems ∧ (s.sockets c).readyState = ReadyState.OPEN) →
        (sendActiveTimers s pool U t1 now).sockets c = s.sockets c) := by
  refine ⟨timersWithProgress fetched now, ?_, ?_, ?_, ?_⟩
  · simp [timersWithProgress]
  · unfold timersWithProgress
    rw [List.forall₂_map_left_iff, List.forall₂_same]
    intro x _
    exact ⟨rfl, rfl, rfl, rfl, rfl⟩
  · intro c hc ho
    rw [sendActiveTimers_ok s pool U t1 now fetched set hf hset, sendToOpen_calls,
      if_pos ⟨hc, ho⟩]
  · intro c hc
    rw [sendActiveTimers_ok s pool U t1 now fetched set hf hset, sendToOpen_calls, if_neg hc]

theorem sendActiveTimers_tick_witness :
    (getTimers demoPool "u1" "true" 1000
        = .ok [{ id := "t2", description := "write", start := 200, isActive := true,
                 progress := some 800, «end» := none, duration := none, currentTime := none }] ∧
      (twoTabs.clients.get "u1").map JSSet.elems = some [1, 2]) ∧
    ∃ data : List TimerData,
      data.map (fun d => d.progress) = [some 807] ∧
      ((sendActiveTimers twoTabs demoPool "u1" 1000 1007).sockets 2).calls
        = (twoTabs.sockets 2).calls ++ [WsCall.send (Msg.activeTimers data 1007)] := by
  refine ⟨⟨rfl, by decide⟩, ?_⟩
  obtain ⟨data, _, hd, h, _⟩ := sendActiveTimers_tick twoTabs demoPool "u1" 1000 1007
    [{ id := "t2", description := "write", start := 200, isActive := true,
       progress := some 800, «end» := none, duration := none, currentTime := none }]
    ⟨[1, 2], by decide⟩ rfl (by decide)
  refine ⟨data, ?_, ?_⟩
  · cases hd with
    | cons h1 h2 =>
      cases h2
      simp only [List.map_cons, List.map_nil, h1.1]
      decide
  · rw [h 2 (by decide) (by decide)]

/-- C9, at its failing input: a socket that the transport has accepted and whose
`connection` handler is suspended at the session lookup has no liveness flag
yet, and the first heartbeat cycle terminates it without sending a probe. -/
theorem heartbeat_terminates_pending_socket :
    (onConnectionBegin (accept State.init 1) 1 (some "sess-1")).2 = true ∧
    1 ∈ pendingTab.wssClients.elems ∧
    (pendingTab.sockets 1).readyState = ReadyState.OPEN ∧
    (pendingTab.sockets 1).isAlive = none ∧
    (pendingTab.sockets 1).calls = [] ∧
    ((heartbeat pendingTab).sockets 1).calls = [WsCall.terminate] ∧
    ((heartbeat pendingTab).sockets 1).readyState = ReadyState.CLOSING := by
  decide

theorem heartbeat_alive_two_cycles (s : State) (c : ConnId) (hc : c ∈ s.wssClients.elems)
    (ha : (s.sockets c).isAlive = some true) :
    ((heartbeat s).sockets c).calls = (s.sockets c).calls ++ [WsCall.ping] ∧
    ((heartbeat (heartbeat s)).sockets c).calls
      = (s.sockets c).calls ++ [WsCall.ping, WsCall.terminate] := by
  have h1 : (heartbeat s).sockets c
      = { s.sockets c with isAlive := some false,
                           calls := (s.sockets c).calls ++ [WsCall.ping] } := by
    rw [heartbeat_eq]
    simp [hc, pingWs, ha, truthyOptBool]
  have hc2 : c ∈ (heartbeat s).wssClients.elems := by
    rw [(socketsOnly_heartbeat s).2.2.2.2.1]; exact hc
  constructor
  · rw [h1]
  · rw [heartbeat_eq (heartbeat s)]
    simp [hc2, h1, pingWs, truthyOptBool]

/-- C10: one heartbeat cycle, for every socket of `wss.clients` whatever its
user: a socket whose liveness flag is `false` gets one `terminate` call and no
probe; a socket whose flag is `true` is not terminated, has the flag reset to
`false` and gets exactly one probe; sockets outside `wss.clients` and the
registry are untouched.  The `pong` listener sets the flag of its socket to
`true` and changes nothing else. -/
theorem heartbeat_cycle (s : State) (c : ConnId) :
    (c ∈ s.wssClients.elems → (s.sockets c).isAlive = some false →
      (heartbeat s).sockets c
        = { s.sockets c with
            calls := (s.sockets c).calls ++ [WsCall.terminate],
            readyState := if (s.sockets c).readyState = ReadyState.CLOSED
              then ReadyState.CLOSED else ReadyState.CLOSING }) ∧
    (c ∈ s.wssClients.elems → (s.sockets c).isAlive = some true →
      (heartbeat s).sockets c
        = { s.sockets c with isAlive := some false,
                             calls := (s.sockets c).calls ++ [WsCall.ping] }) ∧
    (c ∉ s.wssClients.elems → (heartbeat s).sockets c = s.sockets c) ∧
    SocketsOnly s (heartbeat s) ∧
    (onPong s c).sockets c = { s.sockets c with isAlive := some true } ∧
    (∀ d, d ≠ c → (onPong s c).sockets d = s.sockets d) ∧
    SocketsOnly s (onPong s c) := by
  refine ⟨?_, ?_, ?_, socketsOnly_heartbeat s, ?_, ?_, socketsOnly_onPong s c⟩
  · intro hc ha
    rw [heartbeat_eq]
    simp [hc, pingWs, ha, truthyOptBool]
  · intro hc ha
    rw [heartbeat_eq]
    simp [hc, pingWs, ha, truthyOptBool]
  · intro hc
    rw [heartbeat_eq]
    simp [hc]
  · simp [onPong]
  · intro d hd
    exact setWs_sockets_ne s c d _ hd

theorem heartbeat_cycle_witness :
    (1 ∈ oneTab.wssClients.elems ∧ (oneTab.sockets 1).isAlive = some true) ∧
    ((heartbeat oneTab).sockets 1).isAlive = some false ∧
    ((heartbeat oneTab).sockets 1).calls = (oneTab.sockets 1).calls ++ [WsCall.ping] := by
  have h := (heartbeat_cycle oneTab 1).2.1 (by decide) (by decide)
  exact ⟨⟨by decide, by decide⟩, by rw [h], by rw [h]⟩

theorem getTimers_true_error (pool : Bool → UserId → Except String (List Row)) (U : UserId)
    (now : Int) (e : String) (h : pool true U = .error e) :
    getTimers pool U "true" now = .error e := by
  simp only [getTimers, true_or, if_true, decide_True, h]

theorem getTimers_false_error (pool : Bool → UserId → Except String (List Row)) (U : UserId)
    (now : Int) (e : String) (h : pool false U = .error e) :
    getTimers pool U "false" now = .error e := by
  have hq : ("false" = "true" ∨ "false" = "false") := Or.inr rfl
  have hd : decide ("false" = "true") = false := by decide
  simp only [getTimers, hq, if_true, hd, h, or_true]

/-- C12: when the fetch of the active timers fails, `sendActiveTimers` and
`sendAllTimers` return the manager state as it was; when the fetch of the
completed timers fails, whatever the active fetch gave, `sendAllTimers` returns
the state as it was.  No socket gets a call, `clients`, `timerIntervals` and the
scheduled intervals are untouched, and nothing is thrown. -/
theorem fetch_failure_changes_nothing (s : State)
    (pool : Bool → UserId → Except String (List Row)) (U : UserId) (t1 t2 now : Int) :
    (∀ e, pool true U = .error e →
      sendActiveTimers s pool U t1 now = s ∧ sendAllTimers s pool U t1 t2 now = s) ∧
    (∀ e, pool false U = .error e → sendAllTimers s pool U t1 t2 now = s) := by
  constructor
  · intro e h
    have hg := getTimers_true_error pool U t1 e h
    constructor
    · simp only [sendActiveTimers, hg]
    · simp only [sendAllTimers, hg]
  · intro e h
    have hg := getTimers_false_error pool U t2 e h
    unfold sendAllTimers
    split
    · rfl
    · simp only [hg]

theorem fetch_failure_changes_nothing_witness :
    (downPool true "u1" = .error "ECONNREFUSED" ∧
      halfDownPool false "u1" = .error "ECONNREFUSED") ∧
    sendActiveTimers twoTabs downPool "u1" 900 901 = twoTabs ∧
    sendAllTimers twoTabs halfDownPool "u1" 900 901 902 = twoTabs :=
  ⟨⟨rfl, rfl⟩,
    ((fetch_failure_changes_nothing twoTabs downPool "u1" 900 901 902).1 "ECONNREFUSED" rfl).1,
    (fetch_failure_changes_nothing twoTabs halfDownPool "u1" 900 901 902).2 "ECONNREFUSED" rfl⟩

/-- C14: on an authenticated socket `handleMessage` sends exactly one reply, the
`pong` stamped with the clock reading, when the message parses to an object
whose `type` is the string `ping`; in every other case (another type, no type,
a value that is not an object, `null`, an unparseable message) it returns the
state as it was.  It never closes or terminates the socket and never touches
another socket or the registry. -/
theorem handleMessage_authenticated (s : State) (c : ConnId) (parsed : Except String Json)
    (now : Int) (h : truthyOptBool (s.sockets c).isAuthenticated = true) :
    (∀ kvs, parsed = .ok (Json.obj kvs) →
      (kvs.find? (fun p => decide (p.1 = "type"))).map Prod.snd = some (Json.str "ping") →
      (handleMessage s c parsed now).sockets c
        = { s.sockets c with calls := (s.sockets c).calls ++ [WsCall.send (Msg.pong now)] }) ∧
    ((¬ ∃ kvs, parsed = .ok (Json.obj kvs) ∧
        (kvs.find? (fun p => decide (p.1 = "type"))).map Prod.snd = some (Json.str "ping")) →
      handleMessage s c parsed now = s) ∧
    ((handleMessage s c parsed now).sockets c).readyState = (s.sockets c).readyState ∧
    (∀ d, d ≠ c → (handleMessage s c parsed now).sockets d = s.sockets d) ∧
    SocketsOnly s (handleMessage s c parsed now) := by
  have hframe : ((handleMessage s c parsed now).sockets c).readyState = (s.sockets c).readyState ∧
      (∀ d, d ≠ c → (handleMessage s c parsed now).sockets d = s.sockets d) := by
    unfold handleMessage
    split
    · exact ⟨rfl, fun _ _ => rfl⟩
    · split
      · exact ⟨by simp [wsSend], fun d hd => setWs_sockets_ne s c d _ hd⟩
      · split
        · exact ⟨rfl, fun _ _ => rfl⟩
        · split
          · exact ⟨by simp [wsSend], fun d hd => setWs_sockets_ne s c d _ hd⟩
          · exact ⟨rfl, fun _ _ => rfl⟩
        · exact ⟨rfl, fun _ _ => rfl⟩
  refine ⟨?_, ?_, hframe.1, hframe.2, socketsOnly_handleMessage s c parsed now⟩
  · intro kvs hp ht
    subst hp
    simp [handleMessage, h, Json.type, ht, wsSend]
  · intro hno
    unfold handleMessage
    split
    · rfl
    · rename_i data
      simp only [h, Bool.not_true, Bool.false_eq_true, if_false]
      split
      · rfl
      · rename_i t ht
        split
        · rename_i htp
          exfalso
          cases data with
          | obj kvs =>
            apply hno
            refine ⟨kvs, rfl, ?_⟩
            simp only [Json.type, Except.ok.injEq] at ht
            rw [ht, htp]
          | null => simp [Json.type] at ht
          | bool b => simp [Json.type] at ht
          | num n => simp [Json.type] at ht
          | str v => simp [Json.type] at ht
          | arr xs => simp [Json.type] at ht
        · rfl
      · rfl

theorem handleMessage_authenticated_witness :
    truthyOptBool (oneTab.sockets 1).isAuthenticated = true ∧
    (handleMessage oneTab 1 (.ok (Json.obj [("type", Json.str "ping")])) 700).sockets 1
      = { oneTab.sockets 1 with
          calls := (oneTab.sockets 1).calls ++ [WsCall.send (Msg.pong 700)] } :=
  ⟨by decide,
    (handleMessage_authenticated oneTab 1 (.ok (Json.obj [("type", Json.str "ping")])) 700
      (by decide)).1 _ rfl rfl⟩

theorem sendAllTimers_no_entry (s : State) (pool : Bool → UserId → Except String (List Row))
    (U : UserId) (t1 t2 now : Int) (h : s.clients.get U = none) :
    sendAllTimers s pool U t1 t2 now = s := by
  have hhas : s.clients.has U = false := (JSMap.has_false_iff _ _).2 h
  unfold sendAllTimers
  split
  · rfl
  · split
    · rfl
    · simp [hhas]

theorem sendActiveTimers_no_entry (s : State) (pool : Bool → UserId → Except String (List Row))
    (U : UserId) (t1 now : Int) (h : s.clients.get U = none) :
    sendActiveTimers s pool U t1 now = s := by
  have hhas : s.clients.has U = false := (JSMap.has_false_iff _ _).2 h
  unfold sendActiveTimers
  split
  · rfl
  · simp [hhas]

/-- C15: with the fetches succeeding, the message of `sendAllTimers(U)` and the
message of `sendActiveTimers(U)` are each sent once to every socket of
`clients[U]` whose `readyState` is `OPEN` and to no other socket: a socket that
is not open, or that is registered under another identity only, is left as it
was.  When `U` has no registry entry both methods return the state unchanged.
Neither touches the registry, and `notifyTimerCreated` and `notifyTimerStopped`
are `sendAllTimers`. -/
theorem broadcast_recipients (s : State) (pool : Bool → UserId → Except String (List Row))
    (U : UserId) (t1 t2 now : Int) (A S : List TimerData)
    (hA : getTimers pool U "true" t1 = .ok A) (hS : getTimers pool U "false" t2 = .ok S) :
    (∀ set, s.clients.get U = some set → ∀ c,
      (sendAllTimers s pool U t1 t2 now).sockets c
        = if c ∈ set.elems ∧ (s.sockets c).readyState = ReadyState.OPEN then
            { s.sockets c with
              calls := (s.sockets c).calls ++ [WsCall.send (Msg.allTimers (A ++ S) now)] }
          else s.sockets c) ∧
    (∀ set, s.clients.get U = some set → ∀ c,
      (sendActiveTimers s pool U t1 now).sockets c
        = if c ∈ set.elems ∧ (s.sockets c).readyState = ReadyState.OPEN then
            { s.sockets c with
              calls := (s.sockets c).calls ++
                [WsCall.send (Msg.activeTimers (timersWithProgress A now) now)] }
          else s.sockets c) ∧
    (s.clients.get U = none →
      sendAllTimers s pool U t1 t2 now = s ∧ sendActiveTimers s pool U t1 now = s) ∧
    SocketsOnly s (sendAllTimers s pool U t1 t2 now) ∧
    SocketsOnly s (sendActiveTimers s pool U t1 now) ∧
    notifyTimerCreated s pool U t1 t2 now = sendAllTimers s pool U t1 t2 now ∧
    notifyTimerStopped s pool U t1 t2 now = sendAllTimers s pool U t1 t2 now := by
  refine ⟨?_, ?_, ?_, socketsOnly_sendAllTimers s pool U t1 t2 now,
    socketsOnly_sendActiveTimers s pool U t1 now, rfl, rfl⟩
  · intro set hset c
    rw [sendAllTimers_ok s pool U t1 t2 now A S set hA hS hset, sendToOpen_calls]
  · intro set hset c
    rw [sendActiveTimers_ok s pool U t1 now A set hA hset, sendToOpen_calls]
  · intro h
    exact ⟨sendAllTimers_no_entry s pool U t1 t2 now h, sendActiveTimers_no_entry s pool U t1 now h⟩

theorem broadcast_recipients_witness :
    (getTimers demoPool "u1" "true" 600 = .ok (demoActiveData 600) ∧
      getTimers demoPool "u1" "false" 601 = .ok demoCompletedData) ∧
    (notifyTimerCreated mixedTabs demoPool "u1" 600 601 602).sockets 1
      = { mixedTabs.sockets 1 with
          calls := (mixedTabs.sockets 1).calls ++
            [WsCall.send (Msg.allTimers (demoActiveData 600 ++ demoCompletedData) 602)] } ∧
    (notifyTimerCreated mixedTabs demoPool "u1" 600 601 602).sockets 2 = mixedTabs.sockets 2 ∧
    (notifyTimerCreated mixedTabs demoPool "u1" 600 601 602).sockets 3 = mixedTabs.sockets 3 := by
  have h := (broadcast_recipients mixedTabs demoPool "u1" 600 601 602 (demoActiveData 600)
    demoCompletedData rfl rfl).1 ⟨[1, 2], by decide⟩ (by decide)
  exact ⟨⟨rfl, rfl⟩, (h 1).trans (if_pos (by decide)), (h 2).trans (if_neg (by decide)),
    (h 3).trans (if_neg (by decide))⟩

/-! ## Shutdown -/

theorem foldl_clearInterval (l : List (UserId × Nat)) (s : State) :
    l.foldl (fun st p => clearInterval st p.2) s
      = { s with intervals :=
            s.intervals.filter (fun i => !decide (i.handle ∈ l.map Prod.snd)) } := by
  induction l generalizing s with
  | nil => simp
  | cons p l ih =>
    rw [List.foldl_cons, ih]
    apply State.ext <;> try rfl
    simp only [clearInterval, List.filter_filter, List.map_cons, List.mem_cons]
    apply List.filter_congr
    intro i _
    by_cases h1 : i.handle = p.2 <;> by_cases h2 : i.handle ∈ l.map Prod.snd <;> simp [h1, h2]

theorem shutdown_eq (s : State) :
    shutdown s
      = { s with
          intervals :=
            s.intervals.filter (fun i => !decide (i.handle ∈ s.timerIntervals.map Prod.snd)),
          timerIntervals := [],
          wssClosed := true } := by
  unfold shutdown
  rw [foldl_clearInterval]
  rfl

theorem shutdown_shutdown (s : State) : shutdown (shutdown s) = shutdown s := by
  rw [shutdown_eq (shutdown s), shutdown_eq s]
  apply State.ext <;> try rfl
  simp

theorem JSMap.mem_of_get {κ ν : Type} [DecidableEq κ] (m : JSMap κ ν) (k : κ) (v : ν)
    (h : m.get k = some v) : (k, v) ∈ m := by
  unfold JSMap.get at h
  cases hf : m.find? (fun p => decide (p.1 = k)) with
  | none => simp [hf] at h
  | some p =>
    rw [hf] at h
    simp only [Option.map_some', Option.some.injEq] at h
    have hp := List.find?_some hf
    have hm := List.mem_of_find?_eq_some hf
    simp only [decide_eq_true_eq] at hp
    have : p = (k, v) := Prod.ext hp h
    rw [← this]
    exact hm

theorem JSMap.mem_of_mem_set {κ ν : Type} [DecidableEq κ] (m : JSMap κ ν) (k : κ) (v : ν)
    (p : κ × ν) (h : p ∈ m.set k v) : p ∈ m ∨ p = (k, v) := by
  unfold JSMap.set at h
  split at h
  · obtain ⟨q, hq, hqp⟩ := List.mem_map.1 h
    by_cases hk : q.1 = k
    · rw [if_pos hk] at hqp
      exact Or.inr hqp.symm
    · rw [if_neg hk] at hqp
      exact Or.inl (hqp ▸ hq)
  · rcases List.mem_append.1 h with h1 | h1
    · exact Or.inl h1
    · exact Or.inr (List.mem_singleton.1 h1)

theorem JSMap.mem_of_mem_delete {κ ν : Type} [DecidableEq κ] (m : JSMap κ ν) (k : κ)
    (p : κ × ν) (h : p ∈ m.delete k) : p ∈ m :=
  (List.mem_filter.1 h).1

theorem tickInv_congr {s t : State} (h1 : t.timerIntervals = s.timerIntervals)
    (h2 : t.intervals = s.intervals) (h3 : t.nextHandle = s.nextHandle) (h : TickInv s) :
    TickInv t := by
  unfold TickInv
  rw [h1, h2, h3]
  exact h

theorem tickInv_of_socketsOnly {s t : State} (hst : SocketsOnly s t) (h : TickInv s) :
    TickInv t :=
  tickInv_congr hst.2.1 hst.2.2.1 hst.2.2.2.1 h

theorem tickInv_init : TickInv State.init := by
  refine ⟨?_, ?_, ?_, ?_⟩
  · intro i hi U hU
    simp [State.init, startPingInterval, setInterval] at hi
    rw [hi] at hU
    cases hU
  · simp [State.init, startPingInterval, setInterval]
  · intro p hp
    simp [State.init, startPingInterval, setInterval] at hp
  · simp [State.init, startPingInterval, setInterval]

theorem tickInv_startTimerInterval (s : State) (U : UserId) (h : TickInv s) :
    TickInv (startTimerInterval s U) := by
  unfold startTimerInterval
  by_cases hhas : s.timerIntervals.has U = true
  · rw [if_pos hhas]; exact h
  · rw [if_neg hhas]
    have hnone : s.timerIntervals.get U = none := by
      rw [← JSMap.has_false_iff]; simpa using hhas
    obtain ⟨h1, h2, h3, h4⟩ := h
    refine ⟨?_, ?_, ?_, ?_⟩
    · intro i hi V hV
      simp only [setInterval, List.mem_append, List.mem_singleton] at hi
      simp only [setInterval, JSMap.get_set]
      rcases hi with hi | hi
      · have hg := h1 i hi V hV
        have hVU : V ≠ U := by
          intro e
          rw [e, hnone] at hg
          cases hg
        rw [if_neg hVU]
        exact hg
      · rw [hi] at hV
        simp only [Callback.sendActiveTimers.injEq] at hV
        rw [hi, ← hV]
        simp
    · simp only [setInterval, List.mem_append]
      exact Or.inl h2
    · intro p hp
      simp only [setInterval] at hp
      rcases JSMap.mem_of_mem_set _ _ _ _ hp with hp1 | hp1
      · exact h3 p hp1
      · rw [hp1]; exact h4
    · simp only [setInterval]
      omega

theorem tickInv_stopTimerInterval (s : State) (U : UserId) (h : TickInv s) :
    TickInv (stopTimerInterval s U) := by
  unfold stopTimerInterval
  split
  · split
    · exact h
    · rename_i hd hget
      obtain ⟨h1, h2, h3, h4⟩ := h
      have hpos : 1 ≤ hd := h3 (U, hd) (JSMap.mem_of_get _ _ _ hget)
      refine ⟨?_, ?_, ?_, h4⟩
      · intro i hi V hV
        simp only [clearInterval, List.mem_filter, Bool.not_eq_true', decide_eq_false_iff_not] at hi
        simp only [clearInterval, JSMap.get_delete]
        have hg := h1 i hi.1 V hV
        have hVU : V ≠ U := by
          intro e
          rw [e, hget] at hg
          exact hi.2 (Option.some.inj hg).symm
        rw [if_neg hVU]
        exact hg
      · simp only [clearInterval, List.mem_filter, Bool.not_eq_true', decide_eq_false_iff_not]
        refine ⟨h2, ?_⟩
        show ¬ (0 : Nat) = hd
        omega
      · intro p hp
        exact h3 p (JSMap.mem_of_mem_delete _ _ _ hp)
  · exact h

theorem tickInv_onConnectionResume (s : State) (ws : ConnId)
    (lookup : Except String (Option User))
    (pool : Bool → UserId → Except String (List Row)) (t1 t2 now : Int) (h : TickInv s) :
    TickInv (onConnectionResume s ws lookup pool t1 t2 now) := by
  match lookup with
  | .error _ => exact tickInv_of_socketsOnly (socketsOnly_reject s ws _ _ _) h
  | .ok none => exact tickInv_of_socketsOnly (socketsOnly_reject s ws _ _ _) h
  | .ok (some user) =>
    obtain ⟨s2, hs2, heq⟩ : ∃ s2, TickInv s2 ∧
        onConnectionResume s ws (.ok (some user)) pool t1 t2 now
          = match s2.clients.get user.id with
            | none => connectionCatch s2 ws
            | some set =>
              setWs (sendAllTimers
                (wsSend { s2 with clients := s2.clients.set user.id (set.add ws) } ws
                  (Msg.authSuccess "Authentication successful")) pool user.id t1 t2 now) ws
                (fun w => { w with listening := true }) := by
      refine ⟨_, ?_, rfl⟩
      split
      · exact tickInv_startTimerInterval _ _ (tickInv_congr rfl rfl rfl h)
      · exact tickInv_congr rfl rfl rfl h
    rw [heq]
    split
    · exact tickInv_of_socketsOnly (socketsOnly_reject s2 ws _ _ _) hs2
    · refine tickInv_of_socketsOnly
        (socketsOnly_trans (socketsOnly_sendAllTimers _ pool user.id t1 t2 now)
          (socketsOnly_setWs _ ws _)) ?_
      exact tickInv_congr rfl rfl rfl hs2

theorem tickInv_onConnection (s : State) (ws : ConnId) (sessionId : Option String)
    (lookup : Except String (Option User))
    (pool : Bool → UserId → Except String (List Row)) (t1 t2 now : Int) (h : TickInv s) :
    TickInv (onConnection s ws sessionId lookup pool t1 t2 now) := by
  unfold onConnection onConnectionBegin
  by_cases hs : truthyOptStr sessionId = true
  · simp only [hs, Bool.not_true, Bool.false_eq_true, if_false, if_true]
    exact tickInv_onConnectionResume _ ws lookup pool t1 t2 now
      (tickInv_of_socketsOnly (socketsOnly_setWs s ws _) h)
  · have hs0 : truthyOptStr sessionId = false := by simpa using hs
    simp only [hs0, Bool.not_false, if_true, Bool.false_eq_true, if_false]
    exact tickInv_of_socketsOnly
      (socketsOnly_trans (socketsOnly_setWs s ws _) (socketsOnly_reject _ ws _ _ _)) h

theorem tickInv_handleDisconnect (s : State) (c : ConnId) (h : TickInv s) :
    TickInv (handleDisconnect s c) := by
  unfold handleDisconnect
  split
  · exact h
  · split
    · split
      · exact h
      · dsimp only
        split
        · exact tickInv_stopTimerInterval _ _ (tickInv_congr rfl rfl rfl h)
        · exact tickInv_congr rfl rfl rfl h
    · exact h

theorem tickInv_step {s t : State} (hst : Step s t) (h : TickInv s) : TickInv t := by
  cases hst with
  | connection ws sessionId lookup pool t1 t2 now =>
    exact tickInv_onConnection s ws sessionId lookup pool t1 t2 now h
  | disconnect ws => exact tickInv_handleDisconnect s ws h
  | message ws parsed now =>
    exact tickInv_of_socketsOnly (socketsOnly_handleMessage s ws parsed now) h
  | pong ws => exact tickInv_of_socketsOnly (socketsOnly_onPong s ws) h
  | tick pool userId t1 now =>
    exact tickInv_of_socketsOnly (socketsOnly_sendActiveTimers s pool userId t1 now) h
  | notify pool userId t1 t2 now =>
    exact tickInv_of_socketsOnly (socketsOnly_sendAllTimers s pool userId t1 t2 now) h
  | heartbeat => exact tickInv_of_socketsOnly (socketsOnly_heartbeat s) h
  | accept ws => exact tickInv_congr rfl rfl rfl h

theorem tickInv_of_reachable {s : State} (h : Reachable s) : TickInv s := by
  induction h with
  | init => exact tickInv_init
  | step s t _ hst ih => exact tickInv_step hst ih

/-- C13, as stated, fails: after `shutdown()` the heartbeat interval started by
`startPingInterval` is still scheduled; only the ticker of user `u1` is gone. -/
theorem shutdown_keeps_heartbeat :
    twoTabs.intervals
      = [{ handle := 0, callback := Callback.heartbeat, delay := 30000 },
         { handle := 1, callback := Callback.sendActiveTimers "u1", delay := 1000 }] ∧
    (shutdown twoTabs).intervals
      = [{ handle := 0, callback := Callback.heartbeat, delay := 30000 }] ∧
    (shutdown (shutdown twoTabs)).intervals
      = [{ handle := 0, callback := Callback.heartbeat, delay := 30000 }] := by
  decide

/-- C13 (amended): in every reachable state, after `shutdown()` the map
`timerIntervals` is empty, every handle it stored has been cancelled, no ticker
callback remains scheduled and the acceptor is closed, while the heartbeat
interval started by `startPingInterval`, whose handle is never stored, stays
scheduled; a second `shutdown()` leaves that state unchanged. -/
theorem shutdown_cancels_tickers (s : State) (hs : Reachable s) :
    (shutdown s).timerIntervals = [] ∧
    (∀ U h, s.timerIntervals.get U = some h → ∀ i ∈ (shutdown s).intervals, i.handle ≠ h) ∧
    (∀ i ∈ (shutdown s).intervals, i.callback = Callback.heartbeat) ∧
    ({ handle := 0, callback := Callback.heartbeat, delay := 30000 } : Interval)
      ∈ (shutdown s).intervals ∧
    (shutdown s).wssClosed = true ∧
    shutdown (shutdown s) = shutdown s := by
  obtain ⟨h1, h2, h3, _⟩ := tickInv_of_reachable hs
  rw [shutdown_eq]
  refine ⟨rfl, ?_, ?_, ?_, rfl, ?_⟩
  · intro U h hget i hi he
    simp only [List.mem_filter, Bool.not_eq_true', decide_eq_false_iff_not] at hi
    apply hi.2
    rw [he]
    exact List.mem_map.2 ⟨(U, h), JSMap.mem_of_get _ _ _ hget, rfl⟩
  · intro i hi
    simp only [List.mem_filter, Bool.not_eq_true', decide_eq_false_iff_not] at hi
    cases hcb : i.callback with
    | heartbeat => rfl
    | sendActiveTimers U =>
      exfalso
      apply hi.2
      exact List.mem_map.2 ⟨(U, i.handle), JSMap.mem_of_get _ _ _ (h1 i hi.1 U hcb), rfl⟩
  · simp only [List.mem_filter, Bool.not_eq_true', decide_eq_false_iff_not]
    refine ⟨h2, ?_⟩
    intro hmem
    obtain ⟨p, hp, hp0⟩ := List.mem_map.1 hmem
    have := h3 p hp
    omega
  · rw [← shutdown_eq]
    exact shutdown_shutdown s

theorem shutdown_cancels_tickers_witness :
    Reachable twoTabs ∧ (shutdown twoTabs).timerIntervals = [] ∧
    ∀ i ∈ (shutdown twoTabs).intervals, i.callback = Callback.heartbeat :=
  ⟨reachable_twoTabs, (shutdown_cancels_tickers twoTabs reachable_twoTabs).1,
    (shutdown_cancels_tickers twoTabs reachable_twoTabs).2.2.1⟩

end TimerWS
